import Mathlib

/-!
# Verification of the ctmon ingest pipeline

A shallow embedding, in Lean 4, of the core algorithms of the ctmon
transparency-log ingest pipeline (the CT ingester `cmd/ctmon-ingest/main.go`
and the Rekor ingester), together with theorems settling the frozen claims
about its specification.

Conventions of the embedding:
* Go strings are modelled as `List Char`; Go byte slices as `List Nat`
  (each element < 256 where it matters).
* Go `time.Time` / `time.Duration` are modelled as `Int` nanosecond counts;
  `time.Since(t)` at instant `now` is `now - t`.
* Go `int`/`int64` are modelled as `Int` (no overflow occurs in the ranges
  the claims quantify over); Go integer division (truncation toward zero)
  is `Int.div`.
* Calls into external libraries (SHA-256, JSON unmarshalling, TLS-wire
  unmarshalling, X.509 parsing, the HTTP transport, the SQL driver) are
  modelled as function parameters: the theorems quantify over them, so they
  hold for every behaviour of the library.
* Fallible Go functions returning `(T, error)` are modelled as
  `Except (List Char) T`; `log.Fatalf` sites are modelled by a dedicated
  constructor where the distinction matters.
-/

/-- Go string as a list of characters. -/
abbrev GoStr := List Char

/-- `time.Second` in the nanosecond model. -/
def nsPerSecond : Int := 1000000000

/-! ## Constants (Rekor ingester, `const` block) -/

/-- `maxRetries = 5`. -/
def maxRetries : Nat := 5

/-- `initialRetryDelay = 1 * time.Second`. -/
def initialRetryDelay : Int := 1 * nsPerSecond

/-- `maxRetryDelay = 30 * time.Second`. -/
def maxRetryDelay : Int := 30 * nsPerSecond

/-- `circuitBreakerLimit = 10`. -/
def circuitBreakerLimit : Int := 10

/-- `circuitBreakerTimeout = 60 * time.Second`. -/
def circuitBreakerTimeout : Int := 60 * nsPerSecond

/-! ## Rate governor (`RateLimitTracker`) -/

/-- State of `RateLimitTracker` (the `sync.RWMutex` serialises the methods;
the sequential model threads the state explicitly). -/
structure RateLimitTracker where
  rateLimited : Bool
  currentConcurrency : Int
  originalConcurrency : Int
  rateLimitCount : Int
  lastRateLimit : Int
  successfulChunks : Int
  lastRecoveryStep : Int
  deriving Repr, DecidableEq

/-- `NewRateLimitTracker`: zero value for all fields except the two
concurrency fields. -/
def NewRateLimitTracker (initialConcurrency : Int) : RateLimitTracker :=
  { rateLimited := false
    currentConcurrency := initialConcurrency
    originalConcurrency := initialConcurrency
    rateLimitCount := 0
    lastRateLimit := 0
    successfulChunks := 0
    lastRecoveryStep := 0 }

/-- `RateLimitTracker.OnRateLimit`, called at instant `now`.  Marks the
limited flag, counts the event, stamps the time, resets the success counter
and halves the concurrency (minimum 1).  The Go code skips the final
assignment when the value is unchanged; the resulting state is the same. -/
def RateLimitTracker.OnRateLimit (rlt : RateLimitTracker) (now : Int) :
    RateLimitTracker :=
  let rlt := { rlt with
    rateLimited := true
    rateLimitCount := rlt.rateLimitCount + 1
    lastRateLimit := now
    successfulChunks := 0 }
  let newConcurrency := Int.tdiv rlt.currentConcurrency 2
  let newConcurrency := if newConcurrency < 1 then 1 else newConcurrency
  { rlt with currentConcurrency := newConcurrency }

/-- `minStabilityPeriod := 15 * time.Second` (local in `OnChunkSuccess`). -/
def minStabilityPeriod : Int := 15 * nsPerSecond

/-- `successfulChunksNeeded := 2` (local in `OnChunkSuccess`). -/
def successfulChunksNeeded : Int := 2

/-- `minRecoveryInterval := 10 * time.Second` (local in `OnChunkSuccess`). -/
def minRecoveryInterval : Int := 10 * nsPerSecond

/-- `RateLimitTracker.OnChunkSuccess`, called at instant `now`. -/
def RateLimitTracker.OnChunkSuccess (rlt : RateLimitTracker) (now : Int) :
    RateLimitTracker :=
  if rlt.rateLimited then
    let rlt1 := { rlt with successfulChunks := rlt.successfulChunks + 1 }
    if now - rlt1.lastRateLimit > minStabilityPeriod ∧
        rlt1.successfulChunks ≥ successfulChunksNeeded then
      if now - rlt1.lastRecoveryStep > minRecoveryInterval then
        let newConcurrency := rlt1.currentConcurrency * 2
        if newConcurrency ≥ rlt1.originalConcurrency then
          { rlt1 with
            currentConcurrency := rlt1.originalConcurrency
            rateLimited := false
            rateLimitCount := 0
            successfulChunks := 0
            lastRecoveryStep := now }
        else
          { rlt1 with
            currentConcurrency := newConcurrency
            successfulChunks := 0
            lastRecoveryStep := now }
      else rlt1
    else rlt1
  else rlt

/-- C5: the rate governor reacts to its two events as specified.  On a
rate-limit event at instant `now`: concurrency becomes `max 1 (current/2)`
(Go integer division), the limited flag is set, the success counter is
zeroed and the time is stamped.  On a chunk-success event while limited the
success counter is incremented (and is reset to 0 exactly when a recovery
step is taken); the concurrency changes only when, counting this chunk, at
least 2 chunks have succeeded, at least 15 s have elapsed since the last
rate-limit event and at least 10 s since the last recovery step, in which
case it is doubled but bounded by the configured ceiling
(`originalConcurrency`); the limited flag is cleared exactly when the
doubled value reaches the ceiling, in which case the concurrency equals the
ceiling and both counters are cleared. -/
theorem rateLimitTracker_events_spec (rlt : RateLimitTracker) (now : Int) :
    ((rlt.OnRateLimit now).currentConcurrency =
        max 1 (Int.tdiv rlt.currentConcurrency 2) ∧
      (rlt.OnRateLimit now).rateLimited = true ∧
      (rlt.OnRateLimit now).successfulChunks = 0 ∧
      (rlt.OnRateLimit now).lastRateLimit = now) ∧
    ((rlt.OnChunkSuccess now).currentConcurrency ≠ rlt.currentConcurrency →
      rlt.rateLimited = true ∧
      rlt.successfulChunks + 1 ≥ 2 ∧
      now - rlt.lastRateLimit ≥ 15 * nsPerSecond ∧
      now - rlt.lastRecoveryStep ≥ 10 * nsPerSecond ∧
      (rlt.OnChunkSuccess now).currentConcurrency =
        min (rlt.currentConcurrency * 2) rlt.originalConcurrency) ∧
    (rlt.rateLimited = true →
      (rlt.OnChunkSuccess now).successfulChunks = rlt.successfulChunks + 1 ∨
      (rlt.OnChunkSuccess now).successfulChunks = 0 ∧
        (rlt.OnChunkSuccess now).lastRecoveryStep = now) ∧
    ((rlt.OnChunkSuccess now).rateLimited = false → rlt.rateLimited = true →
      rlt.currentConcurrency * 2 ≥ rlt.originalConcurrency ∧
      (rlt.OnChunkSuccess now).currentConcurrency = rlt.originalConcurrency ∧
      (rlt.OnChunkSuccess now).successfulChunks = 0 ∧
      (rlt.OnChunkSuccess now).rateLimitCount = 0) := by
  obtain ⟨rl, cur, orig, cnt, lastRL, chunks, lastRec⟩ := rlt
  simp only [RateLimitTracker.OnRateLimit, RateLimitTracker.OnChunkSuccess,
    minStabilityPeriod, successfulChunksNeeded, minRecoveryInterval,
    nsPerSecond]
  refine ⟨⟨?_, by trivial, by trivial, by trivial⟩, ?_, ?_, ?_⟩
  · generalize Int.tdiv cur 2 = d
    rw [max_def]
    split_ifs <;> omega
  · split_ifs with h1 h2 h3 h4 <;> intro hne <;> simp_all <;> omega
  · intro h1
    split_ifs <;> simp_all
  · split_ifs with h1 h2 h3 h4 <;> intro hcl hrl <;> simp_all

/-- A concrete limited tracker: current 2, ceiling 8, one prior successful
chunk, last rate limit and last recovery step at instant 0. -/
def rltExample : RateLimitTracker :=
  { rateLimited := true, currentConcurrency := 2, originalConcurrency := 8,
    rateLimitCount := 1, lastRateLimit := 0, successfulChunks := 1,
    lastRecoveryStep := 0 }

/-- Witness for `rateLimitTracker_events_spec`: on the concrete tracker
`rltExample` observed at `now = 20 s`, the chunk-success event doubles the
concurrency to 4, and a rate-limit event halves it to 1. -/
theorem rateLimitTracker_events_spec_witness :
    (rltExample.OnChunkSuccess (20 * nsPerSecond)).currentConcurrency = 4 ∧
    (rltExample.OnRateLimit 0).currentConcurrency = 1 := by
  have h := rateLimitTracker_events_spec rltExample (20 * nsPerSecond)
  have h2 := (h.2.1 (by decide)).2.2.2.2
  have h3 := (rateLimitTracker_events_spec rltExample 0).1.1
  refine ⟨?_, ?_⟩
  · rw [h2]; decide
  · rw [h3]; decide

/-! ## Sink circuit breaker (`CircuitBreaker`) -/

/-- State of `CircuitBreaker` (`state` is one of the Go string literals
`"closed"`, `"open"`, `"half-open"`). -/
structure CircuitBreaker where
  failureCount : Int
  lastFailure : Int
  state : String
  deriving Repr, DecidableEq

/-- `circuitBreaker := &CircuitBreaker{state: "closed"}` (both `main`s);
the remaining fields take Go zero values. -/
def initialCircuitBreaker : CircuitBreaker :=
  { failureCount := 0, lastFailure := 0, state := "closed" }

/-- `CircuitBreaker.canExecute` at instant `now`.  The Go method mutates
the receiver on the open-to-half-open transition, so the model returns the
decision together with the updated breaker. -/
def CircuitBreaker.canExecute (cb : CircuitBreaker) (now : Int) :
    Bool × CircuitBreaker :=
  if cb.state = "closed" then (true, cb)
  else if cb.state = "open" ∧ now - cb.lastFailure > circuitBreakerTimeout then
    (true, { cb with state := "half-open" })
  else (decide (cb.state = "half-open"), cb)

/-- `CircuitBreaker.recordSuccess`. -/
def CircuitBreaker.recordSuccess (cb : CircuitBreaker) : CircuitBreaker :=
  { cb with failureCount := 0, state := "closed" }

/-- `CircuitBreaker.recordFailure` at instant `now`. -/
def CircuitBreaker.recordFailure (cb : CircuitBreaker) (now : Int) :
    CircuitBreaker :=
  let cb := { cb with failureCount := cb.failureCount + 1, lastFailure := now }
  if cb.failureCount ≥ circuitBreakerLimit then { cb with state := "open" }
  else cb

/-- The three operations the sink performs on its circuit breaker. -/
inductive CBEvent where
  | canExec (now : Int)
  | recSuccess
  | recFailure (now : Int)
  deriving Repr, DecidableEq

/-- One operation applied to the breaker state. -/
def CircuitBreaker.step (cb : CircuitBreaker) : CBEvent → CircuitBreaker
  | .canExec now => (cb.canExecute now).2
  | .recSuccess => cb.recordSuccess
  | .recFailure now => cb.recordFailure now

/-- The breaker state after a sequence of operations from the initial
(closed) breaker. -/
def runCircuitBreaker (events : List CBEvent) : CircuitBreaker :=
  events.foldl CircuitBreaker.step initialCircuitBreaker

/-- Invariant of every reachable breaker state: the state string is one of
the three literals, and away from `"closed"` the consecutive-failure count
has reached the limit. -/
def CBInv (cb : CircuitBreaker) : Prop :=
  (cb.state = "closed" ∨ cb.state = "open" ∨ cb.state = "half-open") ∧
  (cb.state ≠ "closed" → cb.failureCount ≥ circuitBreakerLimit)

theorem cbInv_initial : CBInv initialCircuitBreaker := by
  constructor
  · left; rfl
  · intro h; exact absurd rfl h

theorem cbInv_step (cb : CircuitBreaker) (e : CBEvent) (h : CBInv cb) :
    CBInv (cb.step e) := by
  obtain ⟨hs, hc⟩ := h
  cases e with
  | canExec now =>
    simp only [CircuitBreaker.step, CircuitBreaker.canExecute]
    split_ifs with h1 h2
    · exact ⟨hs, hc⟩
    · refine ⟨by right; right; rfl, fun _ => hc (by rw [h2.1]; decide)⟩
    · exact ⟨hs, hc⟩
  | recSuccess =>
    refine ⟨by left; rfl, fun h => absurd rfl h⟩
  | recFailure now =>
    simp only [CircuitBreaker.step, CircuitBreaker.recordFailure]
    split_ifs with h1
    · exact ⟨by right; left; rfl, fun _ => h1⟩
    · refine ⟨hs, fun h => ?_⟩
      have := hc h
      simp only [circuitBreakerLimit] at h1 this ⊢
      omega

theorem cbInv_foldl (events : List CBEvent) :
    ∀ cb : CircuitBreaker, CBInv cb →
      CBInv (events.foldl CircuitBreaker.step cb) := by
  induction events with
  | nil => intro cb h; exact h
  | cons e rest ih =>
    intro cb h
    exact ih _ (cbInv_step cb e h)

theorem cbInv_run (events : List CBEvent) : CBInv (runCircuitBreaker events) :=
  cbInv_foldl events initialCircuitBreaker cbInv_initial

/-- After `k` consecutive failures from a state with a consistent
count/state pair, the count has grown by `k` and the breaker is open
exactly when the total reaches the limit. -/
theorem cb_foldl_failures (t : Int) :
    ∀ (k : Nat) (cb : CircuitBreaker), cb.failureCount ≥ 0 →
      cb.state = (if cb.failureCount ≥ circuitBreakerLimit then "open"
        else "closed") →
      ((List.replicate k (CBEvent.recFailure t)).foldl
          CircuitBreaker.step cb).failureCount = cb.failureCount + k ∧
      ((List.replicate k (CBEvent.recFailure t)).foldl
          CircuitBreaker.step cb).state =
        (if cb.failureCount + k ≥ circuitBreakerLimit then "open"
          else "closed") := by
  intro k
  induction k with
  | zero =>
    intro cb h0 hs
    constructor
    · simp
    · simpa using hs
  | succ k ih =>
    intro cb h0 hs
    rw [List.replicate_succ, List.foldl_cons]
    have hc1 : (cb.step (CBEvent.recFailure t)).failureCount =
        cb.failureCount + 1 := by
      simp only [CircuitBreaker.step, CircuitBreaker.recordFailure]
      split_ifs <;> rfl
    have hs1 : (cb.step (CBEvent.recFailure t)).state =
        (if cb.failureCount + 1 ≥ circuitBreakerLimit then "open"
          else "closed") := by
      simp only [CircuitBreaker.step, CircuitBreaker.recordFailure]
      split_ifs with h1
      · rfl
      · have hlt : ¬ cb.failureCount ≥ circuitBreakerLimit := by
          simp only [circuitBreakerLimit] at h1 ⊢
          omega
        rw [hs, if_neg hlt]
    have hrest := ih (cb.step (CBEvent.recFailure t)) (by omega)
      (by rw [hs1, hc1])
    rw [hc1] at hrest
    refine ⟨?_, ?_⟩
    · rw [hrest.1]
      push_cast
      ring
    · rw [hrest.2]
      have he : cb.failureCount + 1 + (k : Int) =
          cb.failureCount + ((k + 1 : Nat) : Int) := by
        push_cast
        ring
      rw [he]

/-- C6: the sink circuit breaker state machine.  (1) Starting from the
initial breaker, a run of `k` consecutive recorded failures leaves the
breaker open exactly when `k ≥ 10`.  For any reachable breaker `cb`
(produced by an arbitrary operation sequence `events`): (2) while open,
an attempt within the 60 s cool-down since the last failure is rejected
and the state is unchanged; (3) once more than the 60 s cool-down has
elapsed the breaker transitions to half-open and the attempt is allowed;
(4) in half-open an attempt is allowed; (5) a recorded success closes the
breaker and resets the consecutive-failure count; (6) a recorded failure
in half-open re-opens the breaker; (7) a recorded failure leaves the
breaker open exactly when the new consecutive-failure count has reached
the limit of 10. -/
theorem circuitBreaker_state_machine (events : List CBEvent) (k : Nat)
    (t now : Int) :
    ((runCircuitBreaker (List.replicate k (CBEvent.recFailure t))).state =
        "open" ↔ (k : Int) ≥ circuitBreakerLimit) ∧
    ((runCircuitBreaker events).state = "open" →
      now - (runCircuitBreaker events).lastFailure ≤ circuitBreakerTimeout →
      (runCircuitBreaker events).canExecute now =
        (false, runCircuitBreaker events)) ∧
    ((runCircuitBreaker events).state = "open" →
      now - (runCircuitBreaker events).lastFailure > circuitBreakerTimeout →
      (runCircuitBreaker events).canExecute now =
        (true, { runCircuitBreaker events with state := "half-open" })) ∧
    ((runCircuitBreaker events).state = "half-open" →
      (runCircuitBreaker events).canExecute now =
        (true, runCircuitBreaker events)) ∧
    ((runCircuitBreaker events).recordSuccess.state = "closed" ∧
      (runCircuitBreaker events).recordSuccess.failureCount = 0) ∧
    ((runCircuitBreaker events).state = "half-open" →
      ((runCircuitBreaker events).recordFailure now).state = "open") ∧
    (((runCircuitBreaker events).recordFailure now).state = "open" ↔
      (runCircuitBreaker events).failureCount + 1 ≥ circuitBreakerLimit) := by
  have hinv := cbInv_run events
  obtain ⟨hs, hc⟩ := hinv
  refine ⟨?_, ?_, ?_, ?_,
    ⟨by simp [CircuitBreaker.recordSuccess], by simp [CircuitBreaker.recordSuccess]⟩,
    ?_, ?_⟩
  · have := cb_foldl_failures t k initialCircuitBreaker (by decide)
      (by decide)
    unfold runCircuitBreaker
    rw [this.2]
    simp only [initialCircuitBreaker, circuitBreakerLimit]
    constructor
    · intro h
      by_contra hk
      rw [if_neg (by omega)] at h
      exact absurd h (by decide)
    · intro h
      rw [if_pos (by omega)]
  · intro hopen hle
    simp only [CircuitBreaker.canExecute, hopen]
    rw [if_neg (by decide), if_neg (by push_neg; intro _; omega)]
    simp
  · intro hopen hgt
    simp only [CircuitBreaker.canExecute, hopen]
    rw [if_neg (by decide), if_pos ⟨by trivial, hgt⟩]
  · intro hho
    simp only [CircuitBreaker.canExecute, hho]
    rw [if_neg (by decide), if_neg (by rintro ⟨h1, -⟩; exact absurd h1 (by decide))]
    simp
  · intro hho
    have hcnt := hc (by rw [hho]; decide)
    simp only [CircuitBreaker.recordFailure]
    rw [if_pos (by simp only [circuitBreakerLimit] at hcnt ⊢; omega)]
  · simp only [CircuitBreaker.recordFailure]
    constructor
    · intro h
      by_contra hk
      rw [if_neg (by omega)] at h
      rcases hs with h1 | h1 | h1
      · rw [h1] at h; exact absurd h (by decide)
      · have := hc (by rw [h1]; decide)
        simp only [circuitBreakerLimit] at this hk
        omega
      · have := hc (by rw [h1]; decide)
        simp only [circuitBreakerLimit] at this hk
        omega
    · intro h
      rw [if_pos h]

/-- Witness for `circuitBreaker_state_machine`: ten consecutive failures at
instant 0 open the breaker; an attempt at 30 s is rejected; an attempt at
61 s is allowed (half-open probe). -/
theorem circuitBreaker_state_machine_witness :
    (runCircuitBreaker (List.replicate 10 (CBEvent.recFailure 0))).state =
      "open" ∧
    (runCircuitBreaker (List.replicate 10 (CBEvent.recFailure 0))).canExecute
      (30 * nsPerSecond) =
      (false, runCircuitBreaker (List.replicate 10 (CBEvent.recFailure 0))) ∧
    ((runCircuitBreaker (List.replicate 10 (CBEvent.recFailure 0))).canExecute
      (61 * nsPerSecond)).1 = true := by
  have h := circuitBreaker_state_machine
    (List.replicate 10 (CBEvent.recFailure 0)) 10 0 (30 * nsPerSecond)
  have h2 := circuitBreaker_state_machine
    (List.replicate 10 (CBEvent.recFailure 0)) 10 0 (61 * nsPerSecond)
  have hopen := h.1.mpr (by decide)
  refine ⟨hopen, h.2.1 hopen (by decide), ?_⟩
  · rw [h2.2.2.1 hopen (by decide)]

/-! ## Database batch retry (`ingestBatchWithRetry`, `calculateBackoffDelay`,
`dbInserter`) -/

/-- `calculateBackoffDelay`: `initialRetryDelay * retryMultiplier^attempt`
capped at `maxRetryDelay`.  The Go code computes the product in `float64`;
for the exponents the program ever uses (`attempt ≤ maxRetries`) the
`float64` value is exact, so the integer model coincides. -/
def calculateBackoffDelay (attempt : Nat) : Int :=
  let delay := initialRetryDelay * 2 ^ attempt
  if delay > maxRetryDelay then maxRetryDelay else delay

/-- Outcome of one `ingestBatchWithRetry` call: the returned error (if
any), the updated circuit breaker, the number of `ingestBatch` attempts
performed, and the backoff delays slept between consecutive attempts. -/
structure RetryOutcome where
  result : Except GoStr Unit
  cb : CircuitBreaker
  attemptsMade : Nat
  delays : List Int

/-- The `for attempt := 0; attempt <= maxRetries; attempt++` loop of
`ingestBatchWithRetry`.  `attemptErr i` is the error returned by the `i`-th
`ingestBatch` call (`none` = success), abstracting the SQL driver.
`remaining` counts the loop iterations still allowed
(`maxRetries + 1 - attempt`); the `attempt = maxRetries` test is the Go
`break` before the final backoff sleep.  Returns (result, number of
attempts performed, delays slept). -/
def ingestRetryLoop (attemptErr : Nat → Option GoStr) :
    Nat → Nat → Except GoStr Unit × Nat × List Int
  | _, 0 => (.error [], 0, [])
  | attempt, r + 1 =>
    match attemptErr attempt with
    | none => (.ok (), 1, [])
    | some e =>
      if attempt = maxRetries then (.error e, 1, [])
      else
        let rest := ingestRetryLoop attemptErr (attempt + 1) r
        (rest.1, rest.2.1 + 1, calculateBackoffDelay attempt :: rest.2.2)

/-- Error message prefix of the final failure
(`"database batch operation failed after %d attempts: %w"`). -/
def failedAfterMsg : GoStr :=
  "database batch operation failed after ".toList ++
    (Nat.repr (maxRetries + 1)).toList ++ " attempts: ".toList

/-- `ingestBatchWithRetry`: circuit-breaker gate, then the retry loop;
success records a breaker success, exhaustion records a breaker failure
and wraps the last error. -/
def ingestBatchWithRetry (attemptErr : Nat → Option GoStr)
    (cb : CircuitBreaker) (now : Int) : RetryOutcome :=
  let ce := cb.canExecute now
  if ce.1 = false then
    { result := .error "circuit breaker is open, skipping database batch operation".toList
      cb := ce.2, attemptsMade := 0, delays := [] }
  else
    let r := ingestRetryLoop attemptErr 0 (maxRetries + 1)
    match r.1 with
    | .ok _ =>
      { result := .ok (), cb := ce.2.recordSuccess,
        attemptsMade := r.2.1, delays := r.2.2 }
    | .error e =>
      { result := .error (failedAfterMsg ++ e), cb := ce.2.recordFailure now,
        attemptsMade := r.2.1, delays := r.2.2 }

/-- `dbInserter`'s `flushBatch` closure treats a failed
`ingestBatchWithRetry` as fatal (`log.Fatalf`).  Returns `true` when the
process is terminated. -/
def flushBatchFatal (attemptErr : Nat → Option GoStr) (cb : CircuitBreaker)
    (now : Int) : Bool :=
  match (ingestBatchWithRetry attemptErr cb now).result with
  | .error _ => true
  | .ok _ => false

theorem ingestRetryLoop_spec (attemptErr : Nat → Option GoStr) :
    ∀ (remaining attempt : Nat), 1 ≤ remaining →
      attempt + remaining = maxRetries + 1 →
      1 ≤ (ingestRetryLoop attemptErr attempt remaining).2.1 ∧
      (ingestRetryLoop attemptErr attempt remaining).2.1 ≤ remaining ∧
      (ingestRetryLoop attemptErr attempt remaining).2.2 =
        (List.range ((ingestRetryLoop attemptErr attempt remaining).2.1 - 1)).map
          (fun i => calculateBackoffDelay (attempt + i)) ∧
      ((∀ i, i < remaining → attemptErr (attempt + i) ≠ none) →
        (∃ e, (ingestRetryLoop attemptErr attempt remaining).1 = .error e) ∧
        (ingestRetryLoop attemptErr attempt remaining).2.1 = remaining) := by
  intro remaining
  induction remaining with
  | zero => intro attempt h1; omega
  | succ r ih =>
    intro attempt _ hsum
    cases herr : attemptErr attempt with
    | none =>
      simp only [ingestRetryLoop, herr]
      refine ⟨le_refl 1, by omega, by simp, ?_⟩
      intro hall
      have h0 := hall 0 (by omega)
      rw [Nat.add_zero] at h0
      exact absurd herr h0
    | some e =>
      by_cases hmax : attempt = maxRetries
      · simp only [ingestRetryLoop, herr, if_pos hmax]
        have hr0 : r = 0 := by
          simp only [maxRetries] at hsum hmax
          omega
        subst hr0
        exact ⟨le_refl 1, le_refl 1, by simp, fun _ => ⟨⟨e, rfl⟩, rfl⟩⟩
      · simp only [ingestRetryLoop, herr, if_neg hmax]
        have hr1 : 1 ≤ r := by
          simp only [maxRetries] at hsum hmax ⊢
          omega
        obtain ⟨ihn1, ihn2, ihd, ihe⟩ := ih (attempt + 1) hr1 (by omega)
        refine ⟨by omega, by omega, ?_, ?_⟩
        · rw [ihd]
          obtain ⟨m, hm⟩ : ∃ m, (ingestRetryLoop attemptErr (attempt + 1) r).2.1 =
              m + 1 :=
            ⟨(ingestRetryLoop attemptErr (attempt + 1) r).2.1 - 1, by omega⟩
          rw [hm]
          simp only [Nat.add_sub_cancel, Nat.add_one_sub_one,
            List.range_succ_eq_map, List.map_cons, List.map_map]
          have hfun : ((fun i => calculateBackoffDelay (attempt + i)) ∘ Nat.succ) =
              (fun i => calculateBackoffDelay (attempt + 1 + i)) := by
            funext i
            simp only [Function.comp]
            congr 1
            omega
          rw [hfun]
          simp
        · intro hall
          have hrec := ihe (fun i hi => by
            have h2 := hall (i + 1) (by omega)
            have heq : attempt + (i + 1) = attempt + 1 + i := by omega
            rwa [heq] at h2)
          exact ⟨hrec.1, by omega⟩

/-- C7 (amended): a database batch insert is attempted at most
`maxRetries + 1 = 6` times; the delays slept between consecutive attempts
are `calculateBackoffDelay 0, 1, …` where
`calculateBackoffDelay k = min (1 s · 2^k) 30 s` (1 s, doubling, capped at
30 s); if every attempt fails (and the breaker admitted the batch) the call
returns an error after exactly 6 attempts; and any returned error is fatal
to the process in `dbInserter`'s flush. -/
theorem ingestBatchWithRetry_spec (attemptErr : Nat → Option GoStr)
    (cb : CircuitBreaker) (now : Int) :
    (ingestBatchWithRetry attemptErr cb now).attemptsMade ≤ maxRetries + 1 ∧
    (ingestBatchWithRetry attemptErr cb now).delays =
      (List.range ((ingestBatchWithRetry attemptErr cb now).attemptsMade - 1)).map
        calculateBackoffDelay ∧
    (∀ k : Nat, calculateBackoffDelay k =
      min (initialRetryDelay * 2 ^ k) maxRetryDelay) ∧
    ((cb.canExecute now).1 = true →
      (∀ i, i ≤ maxRetries → attemptErr i ≠ none) →
      (∃ e, (ingestBatchWithRetry attemptErr cb now).result = .error e) ∧
      (ingestBatchWithRetry attemptErr cb now).attemptsMade = maxRetries + 1) ∧
    (∀ e, (ingestBatchWithRetry attemptErr cb now).result = .error e →
      flushBatchFatal attemptErr cb now = true) := by
  have hcalc : ∀ k : Nat, calculateBackoffDelay k =
      min (initialRetryDelay * 2 ^ k) maxRetryDelay := by
    intro k
    simp only [calculateBackoffDelay]
    generalize initialRetryDelay * 2 ^ k = d
    rw [min_def]
    split_ifs <;> omega
  have hloop := ingestRetryLoop_spec attemptErr (maxRetries + 1) 0
    (by omega) (by omega)
  obtain ⟨hl1, hl2, hl3, hl4⟩ := hloop
  by_cases hce : (cb.canExecute now).1 = false
  · refine ⟨?_, ?_, hcalc, ?_, ?_⟩ <;>
      simp only [ingestBatchWithRetry, if_pos hce]
    · simp
    · simp
    · intro h
      rw [h] at hce
      exact absurd hce (by decide)
    · intro e _
      simp only [flushBatchFatal, ingestBatchWithRetry, if_pos hce]
  · have hce' : ¬ ((cb.canExecute now).1 = false) := hce
    refine ⟨?_, ?_, hcalc, ?_, ?_⟩ <;>
      simp only [ingestBatchWithRetry, if_neg hce']
    · cases hres : (ingestRetryLoop attemptErr 0 (maxRetries + 1)).1 <;>
        simp only [hres] <;> omega
    · cases hres : (ingestRetryLoop attemptErr 0 (maxRetries + 1)).1 <;>
        simp only [hres] <;> simpa using hl3
    · intro _ hall
      have hall2 := hl4 (fun i hi => by
        simpa using hall i (by simp only [maxRetries] at hi ⊢; omega))
      obtain ⟨⟨e, he⟩, hn⟩ := hall2
      rw [he]
      exact ⟨⟨failedAfterMsg ++ e, rfl⟩, hn⟩
    · intro e he
      simp only [flushBatchFatal, ingestBatchWithRetry, if_neg hce']
      cases hres : (ingestRetryLoop attemptErr 0 (maxRetries + 1)).1 with
      | ok u =>
        rw [hres] at he
        exact absurd he (by simp)
      | error e2 => simp [hres]

/-- Witness for `ingestBatchWithRetry_spec`: with every attempt failing
(`fun _ => some "boom"`) on the initial breaker, the batch is attempted
6 times, the slept delays are 1 s, 2 s, 4 s, 8 s, 16 s, and the flush is
fatal. -/
theorem ingestBatchWithRetry_spec_witness :
    (ingestBatchWithRetry (fun _ => some "boom".toList)
      initialCircuitBreaker 0).attemptsMade = 6 ∧
    (ingestBatchWithRetry (fun _ => some "boom".toList)
      initialCircuitBreaker 0).delays =
      [1 * nsPerSecond, 2 * nsPerSecond, 4 * nsPerSecond, 8 * nsPerSecond,
        16 * nsPerSecond] ∧
    flushBatchFatal (fun _ => some "boom".toList) initialCircuitBreaker 0 =
      true := by
  have h := ingestBatchWithRetry_spec (fun _ => some "boom".toList)
    initialCircuitBreaker 0
  have h4 := h.2.2.2.1 (by decide) (fun i _ => by simp)
  obtain ⟨⟨e, he⟩, hn⟩ := h4
  refine ⟨hn, ?_, h.2.2.2.2 e he⟩
  · rw [h.2.1, hn]
    decide

/-- C7 counterexample: the claim says a batch insert is attempted at most
5 times, but with every attempt failing the code performs 6 attempts
(`for attempt := 0; attempt <= maxRetries(=5); attempt++`). -/
theorem ingestBatchWithRetry_six_attempts :
    (ingestBatchWithRetry (fun _ => some "boom".toList)
      initialCircuitBreaker 0).attemptsMade = 6 ∧
    ¬ ((ingestBatchWithRetry (fun _ => some "boom".toList)
      initialCircuitBreaker 0).attemptsMade ≤ 5) := by
  constructor <;> decide

/-! ## Ordered assembler (`OrderedBatchCollector`) -/

/-- State of `OrderedBatchCollector`: the buffered map keyed by batch index
(with distinct batch indexes the map is determined by its key set, so the
model tracks the keys), the next expected batch index, and the sequence of
batch indexes emitted on `resultChan` so far.  The claims concern runs in
which the collector is never closed and downstream consumes the channel, so
the blocking send always completes: the `done`/`closed` shutdown branches
of the Go code are not taken. -/
structure OrderedBatchCollector where
  batches : Finset Nat
  nextExpected : Nat
  emitted : List Nat

/-- `NewOrderedBatchCollector`: empty buffer, `nextExpected = 0`, nothing
emitted. -/
def NewOrderedBatchCollector : OrderedBatchCollector :=
  { batches := ∅, nextExpected := 0, emitted := [] }

/-- The `for` loop of `AddResult`: emit all consecutive buffered results
starting from `nextExpected`, advancing past each one. -/
def emitPending (batches : Finset Nat) (nextExpected : Nat)
    (emitted : List Nat) : Finset Nat × Nat × List Nat :=
  if h : nextExpected ∈ batches then
    emitPending (batches.erase nextExpected) (nextExpected + 1)
      (emitted ++ [nextExpected])
  else (batches, nextExpected, emitted)
termination_by batches.card
decreasing_by exact Finset.card_erase_lt_of_mem h

/-- `OrderedBatchCollector.AddResult`: store the result under its batch
index, then emit all consecutive results starting from `nextExpected`. -/
def OrderedBatchCollector.AddResult (obc : OrderedBatchCollector)
    (batchIndex : Nat) : OrderedBatchCollector :=
  let r := emitPending (insert batchIndex obc.batches) obc.nextExpected
    obc.emitted
  { batches := r.1, nextExpected := r.2.1, emitted := r.2.2 }

/-- The collector state after a sequence of `AddResult` calls (one per
arriving batch result) on a fresh collector. -/
def runCollector (arrivals : List Nat) : OrderedBatchCollector :=
  arrivals.foldl OrderedBatchCollector.AddResult NewOrderedBatchCollector

/-- Collector invariant relative to the set `A` of batch indexes delivered
so far: the emitted sequence is exactly `0, …, nextExpected - 1`, the
buffer holds the delivered indexes not yet emitted, every emitted index was
delivered, and the next expected index is not buffered. -/
def CollectorInv (A : Finset Nat) (obc : OrderedBatchCollector) : Prop :=
  obc.emitted = List.range obc.nextExpected ∧
  obc.batches = A \ Finset.range obc.nextExpected ∧
  Finset.range obc.nextExpected ⊆ A ∧
  obc.nextExpected ∉ obc.batches

theorem emitPending_inv (A : Finset Nat) (b : Finset Nat) :
    ∀ (next : Nat) (out : List Nat),
      out = List.range next → b = A \ Finset.range next →
      Finset.range next ⊆ A →
      ∃ next2, emitPending b next out =
        (A \ Finset.range next2, next2, List.range next2) ∧
        Finset.range next2 ⊆ A ∧ next2 ∉ A \ Finset.range next2 := by
  induction b using Finset.strongInduction with
  | _ b ih =>
    intro next out hout hb hsub
    by_cases hmem : next ∈ b
    · rw [emitPending, dif_pos hmem]
      have hbA : next ∈ A := by
        rw [hb] at hmem
        exact (Finset.mem_sdiff.mp hmem).1
      have hb2 : b.erase next = A \ Finset.range (next + 1) := by
        rw [hb]
        ext x
        simp only [Finset.mem_erase, Finset.mem_sdiff, Finset.mem_range]
        constructor
        · rintro ⟨hne, hA, hlt⟩
          refine ⟨hA, ?_⟩
          omega
        · rintro ⟨hA, hlt⟩
          refine ⟨?_, hA, ?_⟩ <;> omega
      have hsub2 : Finset.range (next + 1) ⊆ A := by
        intro x hx
        rw [Finset.mem_range] at hx
        rcases Nat.lt_succ_iff_lt_or_eq.mp hx with h | h
        · exact hsub (Finset.mem_range.mpr h)
        · rw [h]; exact hbA
      have hout2 : out ++ [next] = List.range (next + 1) := by
        rw [hout, List.range_succ]
      exact ih (b.erase next) (Finset.erase_ssubset hmem) (next + 1)
        (out ++ [next]) hout2 hb2 hsub2
    · rw [emitPending, dif_neg hmem]
      refine ⟨next, ?_, hsub, ?_⟩
      · rw [hout, hb]
      · rw [← hb]; exact hmem

theorem collector_foldl_inv :
    ∀ (arrivals : List Nat) (obc : OrderedBatchCollector) (A : Finset Nat),
      CollectorInv A obc → arrivals.Nodup → (∀ a ∈ arrivals, a ∉ A) →
      CollectorInv (A ∪ arrivals.toFinset)
        (arrivals.foldl OrderedBatchCollector.AddResult obc) := by
  intro arrivals
  induction arrivals with
  | nil =>
    intro obc A hinv _ _
    simpa using hinv
  | cons a rest ih =>
    intro obc A hinv hnd hfresh
    obtain ⟨hout, hb, hsub, hnb⟩ := hinv
    have haA : a ∉ A := hfresh a (List.mem_cons_self a rest)
    have haR : a ∉ Finset.range obc.nextExpected := fun h => haA (hsub h)
    have hins : insert a obc.batches =
        insert a A \ Finset.range obc.nextExpected := by
      rw [hb]
      ext x
      simp only [Finset.mem_insert, Finset.mem_sdiff, Finset.mem_range]
      constructor
      · rintro (rfl | ⟨hA, hlt⟩)
        · exact ⟨Or.inl rfl, fun h => haR (Finset.mem_range.mpr h)⟩
        · exact ⟨Or.inr hA, hlt⟩
      · rintro ⟨rfl | hA, hlt⟩
        · exact Or.inl rfl
        · exact Or.inr ⟨hA, hlt⟩
    have hsub2 : Finset.range obc.nextExpected ⊆ insert a A :=
      hsub.trans (Finset.subset_insert a A)
    obtain ⟨next2, heq, hsub3, hnm⟩ := emitPending_inv (insert a A)
      (insert a obc.batches) obc.nextExpected obc.emitted hout hins hsub2
    rw [List.foldl_cons]
    have hstep : obc.AddResult a =
        { batches := insert a A \ Finset.range next2, nextExpected := next2,
          emitted := List.range next2 } := by
      simp only [OrderedBatchCollector.AddResult, heq]
    rw [hstep]
    have hinv2 : CollectorInv (insert a A)
        { batches := insert a A \ Finset.range next2, nextExpected := next2,
          emitted := List.range next2 } :=
      ⟨rfl, rfl, hsub3, hnm⟩
    have hres := ih _ (insert a A) hinv2 (List.Nodup.of_cons hnd)
      (fun x hx => by
        intro hmem
        rcases Finset.mem_insert.mp hmem with rfl | hxA
        · exact (List.nodup_cons.mp hnd).1 hx
        · exact hfresh x (List.mem_cons_of_mem a hx) hxA)
    have hset : insert a A ∪ rest.toFinset = A ∪ (a :: rest).toFinset := by
      rw [List.toFinset_cons]
      ext x
      simp only [Finset.mem_union, Finset.mem_insert]
      tauto
    rw [← hset]
    exact hres

/-- C1: for every arrival order of batch results with distinct batch
indexes `0, …, n`, the collector emits exactly the batch indexes
`0, 1, …, n` in ascending order (each batch only after all lower-indexed
batches), and consequently — for any contiguous assignment of leaf-index
windows to batches (`start (k+1) = start k + len k`, as produced by the
scheduler) — the leaf indices handed to the sink are strictly
ascending. -/
theorem orderedBatchCollector_emits_in_order (n : Nat) (arrivals : List Nat)
    (start len : Nat → Nat)
    (hperm : arrivals.Perm (List.range (n + 1)))
    (hcontig : ∀ k, start (k + 1) = start k + len k) :
    (runCollector arrivals).emitted = List.range (n + 1) ∧
    List.Pairwise (· < ·) (runCollector arrivals).emitted ∧
    List.Pairwise (· < ·)
      ((runCollector arrivals).emitted.flatMap
        (fun k => List.range' (start k) (len k))) := by
  have hnd : arrivals.Nodup := hperm.nodup_iff.mpr (List.nodup_range (n + 1))
  have htf : arrivals.toFinset = Finset.range (n + 1) := by
    ext x
    simp only [List.mem_toFinset, Finset.mem_range, hperm.mem_iff,
      List.mem_range]
  have hinit : CollectorInv ∅ NewOrderedBatchCollector := by
    refine ⟨rfl, rfl, ?_, ?_⟩ <;> simp [NewOrderedBatchCollector]
  have hrun := collector_foldl_inv arrivals NewOrderedBatchCollector ∅ hinit
    hnd (by simp)
  rw [htf] at hrun
  obtain ⟨hout0, hb0, hsub0, hnb0⟩ := hrun
  have hU : (∅ ∪ Finset.range (n + 1)) = Finset.range (n + 1) := by simp
  rw [hU] at hb0 hsub0
  have hout : (runCollector arrivals).emitted =
      List.range (runCollector arrivals).nextExpected := hout0
  have hb : (runCollector arrivals).batches = Finset.range (n + 1) \
      Finset.range (runCollector arrivals).nextExpected := hb0
  have hsub : Finset.range (runCollector arrivals).nextExpected ⊆
      Finset.range (n + 1) := hsub0
  have hnb : (runCollector arrivals).nextExpected ∉
      (runCollector arrivals).batches := hnb0
  have hle : (runCollector arrivals).nextExpected ≤ n + 1 :=
    Finset.range_subset.mp hsub
  have hge : ¬ (runCollector arrivals).nextExpected < n + 1 := by
    intro hlt
    apply hnb
    rw [hb, Finset.mem_sdiff]
    exact ⟨Finset.mem_range.mpr hlt, fun h =>
      absurd (Finset.mem_range.mp h) (lt_irrefl _)⟩
  have hnext : (runCollector arrivals).nextExpected = n + 1 := by omega
  have hemit : (runCollector arrivals).emitted = List.range (n + 1) := by
    rw [hout, hnext]
  have hstart : ∀ m : Nat, start m = start 0 + ((List.range m).map len).sum := by
    intro m
    induction m with
    | zero => simp
    | succ m ihm2 =>
      have hr2 : List.range (m + 1) = List.range m ++ [m] := List.range_succ m
      rw [hcontig m, ihm2, hr2, List.map_append, List.sum_append]
      simp [Nat.add_assoc]
  have hflat : ∀ m : Nat, (List.range m).flatMap
      (fun k => List.range' (start k) (len k)) =
      List.range' (start 0) (((List.range m).map len).sum) := by
    intro m
    induction m with
    | zero => simp
    | succ m ihm =>
      have hr : List.range (m + 1) = List.range m ++ [m] := List.range_succ m
      rw [hr, List.flatMap_append, ihm, List.map_append, List.sum_append]
      simp only [List.flatMap_cons, List.flatMap_nil, List.append_nil]
      have hra := List.range'_append (start 0) (((List.range m).map len).sum)
        (len m) 1
      simp only [one_mul] at hra
      rw [← hstart m] at hra
      rw [hra]
      have hsum1 : (List.map len [m]).sum = len m := by simp
      rw [hsum1]
      congr 1
      omega
  refine ⟨hemit, by rw [hemit]; exact List.pairwise_lt_range (n + 1), ?_⟩
  rw [hemit, hflat (n + 1)]
  exact List.pairwise_lt_range' (start 0) _ 1

/-- Witness for `orderedBatchCollector_emits_in_order`: batches 0..3
arriving in the order 2, 0, 3, 1 (with 10-leaf windows starting at 0) are
emitted in ascending order 0, 1, 2, 3. -/
theorem orderedBatchCollector_emits_in_order_witness :
    (runCollector [2, 0, 3, 1]).emitted = List.range 4 ∧
    List.Pairwise (· < ·)
      ((runCollector [2, 0, 3, 1]).emitted.flatMap
        (fun k => List.range' (10 * k) 10)) := by
  have h := orderedBatchCollector_emits_in_order 3 [2, 0, 3, 1]
    (fun k => 10 * k) (fun _ => 10) (by decide)
    (fun k => by ring)
  exact ⟨h.1, h.2.2⟩

/-! ## Go string helpers (`strings.TrimSpace`, `strings.Split`,
`strings.Contains`) -/

/-- `unicode.IsSpace` restricted to the characters that occur in Latin-1
(the only ones Go's `TrimSpace` fast path distinguishes). -/
def goIsSpace (c : Char) : Bool :=
  c = ' ' ∨ c = '\t' ∨ c = '\n' ∨ c = '\x0b' ∨ c = '\x0c' ∨ c = '\r' ∨
    c = '\u0085' ∨ c = ' '

/-- `strings.TrimSpace`: drop leading and trailing white space. -/
def goTrimSpace (s : List Char) : List Char :=
  ((s.dropWhile goIsSpace).reverse.dropWhile goIsSpace).reverse

/-- Splitting worker for a non-empty separator.  `fuel` bounds the
recursion depth; `goSplit` passes the input length, which suffices because
every recursive call shortens the list, so the `fuel = 0` clause is never
reached from `goSplit`.  Fuel keeps the recursion structural, hence
computable by the kernel. -/
def goSplitAux (sep : List Char) : Nat → List Char → List (List Char)
  | _, [] => [[]]
  | 0, l => [l]
  | fuel + 1, c :: rest =>
    if sep.isPrefixOf (c :: rest) then
      [] :: goSplitAux sep fuel (rest.drop (sep.length - 1))
    else
      match goSplitAux sep fuel rest with
      | [] => [[c]]
      | seg :: segs => (c :: seg) :: segs

/-- `strings.Split(l, sep)`: substrings of `l` between non-overlapping
instances of `sep`, scanned left to right (for the empty separator Go
splits after every character). -/
def goSplit (sep l : List Char) : List (List Char) :=
  match sep with
  | [] => l.map (fun c => [c])
  | s0 :: srest => goSplitAux (s0 :: srest) l.length l

/-- `strings.Contains(s, sub)`. -/
def containsSubstring (s sub : List Char) : Bool :=
  if sub.isPrefixOf s then true
  else
    match s with
    | [] => false
    | _ :: t => containsSubstring t sub

theorem isPrefixOf_append_self (sub post : List Char) :
    sub.isPrefixOf (sub ++ post) = true := by
  induction sub with
  | nil => simp [List.isPrefixOf]
  | cons c t ih => simp [List.isPrefixOf, ih]

/-- A string built around `sub` contains `sub`. -/
theorem containsSubstring_of_infix (pre post sub : List Char) :
    containsSubstring (pre ++ (sub ++ post)) sub = true := by
  induction pre with
  | nil =>
    rw [List.nil_append, containsSubstring.eq_def,
      if_pos (isPrefixOf_append_self sub post)]
  | cons c pre ih =>
    rw [List.cons_append, containsSubstring.eq_def]
    split_ifs with h
    · rfl
    · exact ih

/-! ## Checkpoint tree-ID validation (`parseCheckpointTreeID`,
`validateCheckpointTreeID`) -/

/-- `parseCheckpointTreeID`: split the trimmed checkpoint into lines,
require at least 3, split the first line on `" - "`, require exactly two
parts with a non-empty tree ID. -/
def parseCheckpointTreeID (checkpoint : GoStr) : Except GoStr GoStr :=
  let lines := goSplit ['\n'] (goTrimSpace checkpoint)
  if lines.length < 3 then
    .error ("invalid checkpoint format: expected at least 3 lines, got ".toList
      ++ (Nat.repr lines.length).toList)
  else
    let firstLine := lines.getD 0 []
    let parts := goSplit " - ".toList firstLine
    if parts.length ≠ 2 then
      .error ("invalid checkpoint first line format: ".toList ++ firstLine)
    else
      let treeID := goTrimSpace (parts.getD 1 [])
      if treeID = [] then .error "empty tree ID in checkpoint".toList
      else .ok treeID

/-- `validateCheckpointTreeID`: non-empty checkpoint whose parsed tree ID
equals the expected one. -/
def validateCheckpointTreeID (checkpoint expectedTreeID : GoStr) :
    Except GoStr Unit :=
  if checkpoint = [] then .error "empty checkpoint".toList
  else
    match parseCheckpointTreeID checkpoint with
    | .error e => .error ("failed to parse checkpoint tree ID: ".toList ++ e)
    | .ok checkpointTreeID =>
      if checkpointTreeID ≠ expectedTreeID then
        .error ("checkpoint tree ID mismatch: expected ".toList ++
          expectedTreeID ++ ", got ".toList ++ checkpointTreeID)
      else .ok ()

/-! ## Base64 (`encoding/base64` StdEncoding) -/

/-- Index of a character in the standard base64 alphabet. -/
def b64Index (c : Char) : Option Nat :=
  if 'A' ≤ c ∧ c ≤ 'Z' then some (c.toNat - 65)
  else if 'a' ≤ c ∧ c ≤ 'z' then some (c.toNat - 97 + 26)
  else if '0' ≤ c ∧ c ≤ '9' then some (c.toNat - 48 + 52)
  else if c = '+' then some 62
  else if c = '/' then some 63
  else none

/-- `base64.StdEncoding.DecodeString`: four-character quanta, `=` padding
only at the very end (one or two characters), any character outside the
alphabet (including whitespace) and any length not a multiple of four are
errors. -/
def base64StdDecode : List Char → Option (List Nat)
  | [] => some []
  | c1 :: c2 :: c3 :: c4 :: rest =>
    match b64Index c1, b64Index c2 with
    | some i1, some i2 =>
      if c3 = '=' then
        if c4 = '=' ∧ rest = [] then some [i1 * 4 + i2 / 16]
        else none
      else
        match b64Index c3 with
        | some i3 =>
          if c4 = '=' then
            if rest = [] then
              some [i1 * 4 + i2 / 16, (i2 % 16) * 16 + i3 / 4]
            else none
          else
            match b64Index c4 with
            | some i4 =>
              match base64StdDecode rest with
              | some tail =>
                some ([i1 * 4 + i2 / 16, (i2 % 16) * 16 + i3 / 4,
                  (i3 % 4) * 64 + i4] ++ tail)
              | none => none
            | none => none
        | none => none
    | _, _ => none
  | _ => none

/-- Character at an index of the standard base64 alphabet (index taken
mod 64). -/
def b64Char (i : Nat) : Char :=
  "ABCDEFGHIJKLMNOPQRSTUVWXYZabcdefghijklmnopqrstuvwxyz0123456789+/".toList.getD
    (i % 64) 'A'

/-- `base64.StdEncoding.EncodeToString` (used for
`RawLeafCertificateDERBase64`); bytes are taken mod 256. -/
def base64StdEncode : List Nat → List Char
  | [] => []
  | [b1] =>
    [b64Char ((b1 % 256) / 4), b64Char ((b1 % 256 % 4) * 16), '=', '=']
  | [b1, b2] =>
    [b64Char ((b1 % 256) / 4), b64Char ((b1 % 256 % 4) * 16 + (b2 % 256) / 16),
      b64Char ((b2 % 256 % 16) * 4), '=']
  | b1 :: b2 :: b3 :: rest =>
    [b64Char ((b1 % 256) / 4), b64Char ((b1 % 256 % 4) * 16 + (b2 % 256) / 16),
      b64Char ((b2 % 256 % 16) * 4 + (b3 % 256) / 64), b64Char (b3 % 256 % 64)]
      ++ base64StdEncode rest

/-! ## Rekor entry parsing (`parseEntryBody`, `parseRekorEntry`) -/

/-- Rekor API entry as decoded from the batch response
(`RekorLogEntry` plus its `verification.inclusionProof`). -/
structure RekorInclusionProof where
  logIndex : Int
  checkpoint : GoStr

structure RekorVerification where
  inclusionProof : Option RekorInclusionProof
  signedEntryTimestamp : GoStr

structure RekorLogEntry where
  body : GoStr
  integratedTime : Int
  logID : GoStr
  logIndex : Int
  verification : Option RekorVerification

/-- The JSON document inside the base64 body: `{apiVersion, kind, spec}`.
The `spec` payload (a free-form JSON object) is abstracted by the type
parameter `σ`. -/
structure RekorEntryBody (σ : Type) where
  apiVersion : GoStr
  kind : GoStr
  spec : Option σ

/-- A parsed row.  The common metadata columns are explicit; the fields
derived from `spec` (signature format, data hash, X.509 and PGP fields,
written only by the `spec`-extraction block of `parseRekorEntry`,
`parseX509Certificate` and `parsePGPSignature`) are gathered in the
`derived` component of type `ξ`. -/
structure RekorLogEntryDetails (ξ : Type) where
  treeID : GoStr
  logIndex : Int
  entryUUID : GoStr
  retrievalTimestamp : Int
  body : GoStr
  integratedTime : Int
  logID : GoStr
  kind : GoStr
  apiVersion : GoStr
  signedEntryTimestamp : GoStr
  derived : ξ

/-- Result of `parseRekorEntry`: `fatalLog` models the `log.Fatalf` exits
(nil verification / inclusion proof), `failure` a returned error, `success`
a produced row. -/
inductive RekorParse (ξ : Type) where
  | fatalLog (msg : GoStr)
  | failure (msg : GoStr)
  | success (details : RekorLogEntryDetails ξ)

/-- `parseEntryBody`: base64-decode the body, then JSON-unmarshal it.
`jsonParse` abstracts `json.Unmarshal` into `RekorEntryBody`. -/
def parseEntryBody {σ : Type}
    (jsonParse : List Nat → Option (RekorEntryBody σ))
    (bodyBase64 : GoStr) : Except GoStr (RekorEntryBody σ) :=
  match base64StdDecode bodyBase64 with
  | none => .error "failed to decode entry body".toList
  | some bodyBytes =>
    match jsonParse bodyBytes with
    | none => .error "failed to parse entry body JSON".toList
    | some entryBody => .ok entryBody

/-- `parseRekorEntry` at instant `now`.  `extractSpec` abstracts the block
that extracts signature/data-hash fields from a non-nil `spec` and
dispatches on `kind` to `parseX509Certificate` / `parsePGPSignature`; that
block cannot fail and writes only the `derived` fields, which the model
enforces structurally.  `emptyDerived` is the zero value of the derived
fields. -/
def parseRekorEntry {σ ξ : Type}
    (jsonParse : List Nat → Option (RekorEntryBody σ))
    (extractSpec : σ → GoStr → ξ → ξ) (emptyDerived : ξ)
    (uuid : GoStr) (entry : RekorLogEntry) (treeID : GoStr) (now : Int) :
    RekorParse ξ :=
  match entry.verification with
  | none =>
    .fatalLog ("CRITICAL: entry.Verification is nil for UUID ".toList ++ uuid)
  | some verification =>
    match verification.inclusionProof with
    | none =>
      .fatalLog ("CRITICAL: entry.Verification.InclusionProof is nil for UUID ".toList
        ++ uuid)
    | some proof =>
      match validateCheckpointTreeID proof.checkpoint treeID with
      | .error err =>
        .failure ("CRITICAL: Checkpoint tree ID validation failed for entry UUID ".toList
          ++ uuid ++ " at global index ".toList ++
          (toString entry.logIndex).toList ++ ": ".toList ++ err)
      | .ok _ =>
        let details : RekorLogEntryDetails ξ :=
          { treeID := treeID, logIndex := proof.logIndex, entryUUID := uuid,
            retrievalTimestamp := now, body := entry.body,
            integratedTime := entry.integratedTime, logID := entry.logID,
            kind := [], apiVersion := [], signedEntryTimestamp := [],
            derived := emptyDerived }
        match parseEntryBody jsonParse entry.body with
        | .error err =>
          .failure ("failed to parse entry body for UUID ".toList ++ uuid ++
            ": ".toList ++ err)
        | .ok entryBody =>
          let details := { details with
            kind := entryBody.kind, apiVersion := entryBody.apiVersion }
          let details :=
            match entryBody.spec with
            | some spec =>
              { details with
                derived := extractSpec spec entryBody.kind details.derived }
            | none => details
          let details :=
            if verification.signedEntryTimestamp ≠ [] then
              { details with
                signedEntryTimestamp := verification.signedEntryTimestamp }
            else details
          .success details

/-- The substring `main` looks for (line
`strings.Contains(err.Error(), "Checkpoint tree ID validation failed")`)
to decide to cancel the fetch loop and shut down. -/
def checkpointFailureMarker : GoStr :=
  "Checkpoint tree ID validation failed".toList

/-- `main`'s classification of a `parseRekorEntry` error: `true` means the
fetch loop cancels outstanding fetches, closes the collector and returns,
terminating the process. -/
def isCheckpointShutdownError (e : GoStr) : Bool :=
  containsSubstring e checkpointFailureMarker

/-- The literal error prefix of the checkpoint failure contains the marker
`main` greps for. -/
theorem shutdownMarker_in_critical (tail : GoStr) :
    isCheckpointShutdownError
      ("CRITICAL: Checkpoint tree ID validation failed for entry UUID ".toList
        ++ tail) = true := by
  have hdecomp :
      "CRITICAL: Checkpoint tree ID validation failed for entry UUID ".toList
        = "CRITICAL: ".toList ++
          (checkpointFailureMarker ++ " for entry UUID ".toList) := by decide
  simp only [isCheckpointShutdownError]
  rw [hdecomp, List.append_assoc, List.append_assoc]
  exact containsSubstring_of_infix _ _ _

/-- A successful `validateCheckpointTreeID` means the checkpoint parsed to
exactly the expected tree ID. -/
theorem validateCheckpoint_ok_parse (cp tid : GoStr) (u : Unit)
    (hval : validateCheckpointTreeID cp tid = .ok u) :
    parseCheckpointTreeID cp = .ok tid := by
  unfold validateCheckpointTreeID at hval
  by_cases hnil : cp = []
  · simp [hnil] at hval
  · rw [if_neg hnil] at hval
    cases hpc : parseCheckpointTreeID cp with
    | error e => simp [hpc] at hval
    | ok ctid =>
      rw [hpc] at hval
      by_cases hne : ctid ≠ tid
      · simp [hne] at hval
      · push_neg at hne
        rw [hne]

/-- C2: a Rekor entry produces a row only when the tree ID parsed from its
inclusion-proof checkpoint equals the expected active tree ID (and the row
records that tree ID); on checkpoint validation failure `parseRekorEntry`
returns an error (no row) carrying the marker on which `main` cancels the
fetch loop and terminates the process. -/
theorem parseRekorEntry_checkpoint_enforced {σ ξ : Type}
    (jsonParse : List Nat → Option (RekorEntryBody σ))
    (extractSpec : σ → GoStr → ξ → ξ) (emptyDerived : ξ) (uuid : GoStr)
    (entry : RekorLogEntry) (treeID : GoStr) (now : Int) :
    (∀ details, parseRekorEntry jsonParse extractSpec emptyDerived uuid entry
        treeID now = .success details →
      details.treeID = treeID ∧
      ∃ verification proof, entry.verification = some verification ∧
        verification.inclusionProof = some proof ∧
        parseCheckpointTreeID proof.checkpoint = .ok treeID) ∧
    (∀ verification proof e, entry.verification = some verification →
      verification.inclusionProof = some proof →
      validateCheckpointTreeID proof.checkpoint treeID = .error e →
      ∃ msg, parseRekorEntry jsonParse extractSpec emptyDerived uuid entry
        treeID now = .failure msg ∧ isCheckpointShutdownError msg = true) := by
  constructor
  · intro details hsucc
    cases hver : entry.verification with
    | none =>
      simp [parseRekorEntry, hver] at hsucc
    | some verification =>
      cases hpr : verification.inclusionProof with
      | none =>
        simp [parseRekorEntry, hver, hpr] at hsucc
      | some proof =>
        cases hval : validateCheckpointTreeID proof.checkpoint treeID with
        | error e =>
          simp [parseRekorEntry, hver, hpr, hval] at hsucc
        | ok u =>
          refine ⟨?_, verification, proof, rfl, hpr,
            validateCheckpoint_ok_parse _ _ u hval⟩
          cases hpe : parseEntryBody jsonParse entry.body with
          | error e =>
            simp [parseRekorEntry, hver, hpr, hval, hpe] at hsucc
          | ok entryBody =>
            simp only [parseRekorEntry, hver, hpr, hval, hpe,
              RekorParse.success.injEq] at hsucc
            subst hsucc
            cases hsp : entryBody.spec <;> split_ifs <;> rfl
  · intro verification proof e hver hpr hval
    refine ⟨"CRITICAL: Checkpoint tree ID validation failed for entry UUID ".toList
      ++ uuid ++ " at global index ".toList ++ (toString entry.logIndex).toList
      ++ ": ".toList ++ e, ?_, shutdownMarker_in_critical _⟩
    simp only [parseRekorEntry, hver, hpr, hval]

/-- A concrete Rekor entry whose checkpoint names tree `OTHER`. -/
def rekorEntryMismatch : RekorLogEntry :=
  { body := "AAAA".toList, integratedTime := 0, logID := "lid".toList,
    logIndex := 7,
    verification := some
      { inclusionProof := some
          { logIndex := 5,
            checkpoint :=
              "rekor.sigstore.dev - OTHER\nline two\nline three".toList }
        signedEntryTimestamp := [] } }

/-- Witness for `parseRekorEntry_checkpoint_enforced`: the mismatching
entry `rekorEntryMismatch` against expected tree `T1` yields an error that
`main` classifies as a checkpoint shutdown. -/
theorem parseRekorEntry_checkpoint_enforced_witness :
    ∃ msg, parseRekorEntry (fun _ => (none : Option (RekorEntryBody Unit)))
      (fun _ _ d => d) () "u".toList rekorEntryMismatch "T1".toList 0 =
        .failure msg ∧ isCheckpointShutdownError msg = true := by
  have h := parseRekorEntry_checkpoint_enforced (σ := Unit) (ξ := Unit)
    (fun _ => none) (fun _ _ d => d) () "u".toList rekorEntryMismatch
    "T1".toList 0
  obtain ⟨e, he⟩ : ∃ e, validateCheckpointTreeID
      "rekor.sigstore.dev - OTHER\nline two\nline three".toList "T1".toList =
      .error e := ⟨_, rfl⟩
  exact h.2 _ _ e rfl rfl he

/-- C10: a checkpoint whose trimmed content has fewer than three lines is
rejected by `parseCheckpointTreeID` (whatever its first line looks like),
hence fails `validateCheckpointTreeID`, and any Rekor entry carrying it is
treated as a fatal checkpoint mismatch: `parseRekorEntry` returns an error
bearing the shutdown marker. -/
theorem parseCheckpointTreeID_requires_three_lines
    (checkpoint expected : GoStr)
    (hlines : (goSplit ['\n'] (goTrimSpace checkpoint)).length < 3) :
    (∃ e, parseCheckpointTreeID checkpoint = .error e) ∧
    (∃ e, validateCheckpointTreeID checkpoint expected = .error e) ∧
    (∀ {σ ξ : Type} (jsonParse : List Nat → Option (RekorEntryBody σ))
      (extractSpec : σ → GoStr → ξ → ξ) (emptyDerived : ξ) (uuid : GoStr)
      (entry : RekorLogEntry) (verification : RekorVerification)
      (proof : RekorInclusionProof) (now : Int),
      entry.verification = some verification →
      verification.inclusionProof = some proof →
      proof.checkpoint = checkpoint →
      ∃ msg, parseRekorEntry jsonParse extractSpec emptyDerived uuid entry
        expected now = .failure msg ∧ isCheckpointShutdownError msg = true) := by
  have hp : parseCheckpointTreeID checkpoint =
      .error ("invalid checkpoint format: expected at least 3 lines, got ".toList
        ++ (Nat.repr (goSplit ['\n'] (goTrimSpace checkpoint)).length).toList) := by
    simp only [parseCheckpointTreeID]
    rw [if_pos hlines]
  have hv : ∃ e, validateCheckpointTreeID checkpoint expected = .error e := by
    by_cases hnil : checkpoint = []
    · refine ⟨"empty checkpoint".toList, ?_⟩
      simp only [validateCheckpointTreeID]
      rw [if_pos hnil]
    · refine ⟨"failed to parse checkpoint tree ID: ".toList ++
        ("invalid checkpoint format: expected at least 3 lines, got ".toList ++
          (Nat.repr (goSplit ['\n'] (goTrimSpace checkpoint)).length).toList), ?_⟩
      simp only [validateCheckpointTreeID]
      rw [if_neg hnil, hp]
  refine ⟨⟨_, hp⟩, hv, ?_⟩
  intro σ ξ jsonParse extractSpec emptyDerived uuid entry verification proof
    now hver hpr hcp
  obtain ⟨e, hve⟩ := hv
  refine ⟨"CRITICAL: Checkpoint tree ID validation failed for entry UUID ".toList
    ++ uuid ++ " at global index ".toList ++ (toString entry.logIndex).toList
    ++ ": ".toList ++ e, ?_, shutdownMarker_in_critical _⟩
  rw [← hcp] at hve
  simp only [parseRekorEntry, hver, hpr, hve]

/-- Witness for `parseCheckpointTreeID_requires_three_lines`: a one-line
checkpoint with a well-formed first line and matching tree ID is still
rejected. -/
theorem parseCheckpointTreeID_requires_three_lines_witness :
    (∃ e, parseCheckpointTreeID "rekor.sigstore.dev - T123".toList =
      .error e) ∧
    (∃ e, validateCheckpointTreeID "rekor.sigstore.dev - T123".toList
      "T123".toList = .error e) := by
  have h := parseCheckpointTreeID_requires_three_lines
    "rekor.sigstore.dev - T123".toList "T123".toList (by decide)
  exact ⟨h.1, h.2.1⟩

/-! ## CT leaf parsing (`parseLogEntry`, CT ingester `main.go`) -/

/-- Lowercase hex digit. -/
def hexDigit (n : Nat) : Char := "0123456789abcdef".toList.getD (n % 16) '0'

/-- `fmt.Sprintf("%x", bytes)` / `hex.EncodeToString`: two lowercase hex
digits per byte. -/
def hexEncode (bytes : List Nat) : List Char :=
  bytes.flatMap (fun b => [hexDigit ((b % 256) / 16), hexDigit (b % 16)])

/-- One element of the CT `get-entries` response. -/
structure CTLogResponseEntry where
  leafInput : GoStr
  extraData : GoStr

/-- RFC 6962 `TimestampedEntry` as exposed by the certificate-transparency
library: `entryType` 0 is `x509_entry`, 1 is `precert_entry`. -/
structure TimestampedEntry where
  timestamp : Int
  entryType : Nat
  x509Data : List Nat
  precertTBS : List Nat
  precertIssuerKeyHash : List Nat

/-- RFC 6962 `MerkleTreeLeaf`: version 0 is `ct.V1`, leaf type 0 is
`TimestampedEntryLeafType`. -/
structure MerkleTreeLeaf where
  version : Nat
  leafType : Nat
  timestampedEntry : TimestampedEntry

/-- A parsed CT row.  The columns filled from a successfully parsed X.509
certificate (subject/issuer, validity, serial, SANs, key data — written
only by the parse-success branch) are gathered in `derived : ξ`. -/
structure CertificateDetails (ξ : Type) where
  logID : GoStr
  logIndex : Int
  retrievalTimestamp : Int
  leafInputBase64 : GoStr
  extraDataBase64 : GoStr
  entryTimestamp : Int
  entryType : GoStr
  rawLeafCertificateDERBase64 : GoStr
  certificateSHA256 : GoStr
  tbsCertificateSHA256 : GoStr
  precertIssuerKeyHash : GoStr
  derived : ξ

/-- `parseLogEntry` (CT ingester) at instant `now`.  `unmarshalLeaf` and
`unmarshalTimestamped` abstract `cttls.Unmarshal` into `MerkleTreeLeaf` /
bare `TimestampedEntry` (the fallback synthesises the V1 wrapper);
`parseCert` abstracts `ctx509.ParseCertificate` (certificate type `κ`);
`sha256` abstracts `crypto/sha256`; `fillCert` abstracts the field
extraction from a parsed certificate and `rawTBS` its `RawTBSCertificate`;
`emptyDerived` is the zero value of the derived columns.  The entry
timestamp stays in milliseconds as carried by the leaf. -/
def parseLogEntry {κ ξ : Type}
    (unmarshalLeaf : List Nat → Option MerkleTreeLeaf)
    (unmarshalTimestamped : List Nat → Option TimestampedEntry)
    (parseCert : List Nat → Option κ)
    (sha256 : List Nat → List Nat)
    (fillCert : κ → ξ → ξ) (rawTBS : κ → List Nat) (emptyDerived : ξ)
    (rawEntry : CTLogResponseEntry) (logID : GoStr) (currentLogIndex : Int)
    (now : Int) : Except GoStr (CertificateDetails ξ) :=
  match base64StdDecode rawEntry.leafInput with
  | none => .error "failed to base64 decode leaf_input".toList
  | some leafInputBytes =>
    let merkleLeafQ : Option MerkleTreeLeaf :=
      match unmarshalLeaf leafInputBytes with
      | some merkleLeaf => some merkleLeaf
      | none =>
        match unmarshalTimestamped leafInputBytes with
        | none => none
        | some tsEntry =>
          some { version := 0, leafType := 0, timestampedEntry := tsEntry }
    match merkleLeafQ with
    | none =>
      .error "failed to cttls.Unmarshal MerkleTreeLeaf or TimestampedEntry".toList
    | some merkleLeaf =>
      if merkleLeaf.version ≠ 0 then
        .error "unknown MerkleTreeLeaf version".toList
      else if merkleLeaf.leafType ≠ 0 then
        .error "unknown MerkleTreeLeaf type".toList
      else
        let tsEntry := merkleLeaf.timestampedEntry
        let details : CertificateDetails ξ :=
          { logID := logID, logIndex := currentLogIndex,
            retrievalTimestamp := now,
            leafInputBase64 := rawEntry.leafInput,
            extraDataBase64 := rawEntry.extraData,
            entryTimestamp := tsEntry.timestamp,
            entryType := [], rawLeafCertificateDERBase64 := [],
            certificateSHA256 := [], tbsCertificateSHA256 := [],
            precertIssuerKeyHash := [], derived := emptyDerived }
        if tsEntry.entryType = 0 then
          let details := { details with
            entryType := "x509_entry".toList
            rawLeafCertificateDERBase64 := base64StdEncode tsEntry.x509Data
            certificateSHA256 := hexEncode (sha256 tsEntry.x509Data) }
          match parseCert tsEntry.x509Data with
          | none => .ok details
          | some cert =>
            let details := { details with derived := fillCert cert details.derived }
            let details :=
              if (rawTBS cert).length > 0 then
                { details with
                  tbsCertificateSHA256 := hexEncode (sha256 (rawTBS cert)) }
              else details
            .ok details
        else if tsEntry.entryType = 1 then
          .ok { details with
            entryType := "precert_entry".toList
            rawLeafCertificateDERBase64 := base64StdEncode tsEntry.precertTBS
            precertIssuerKeyHash := hexEncode tsEntry.precertIssuerKeyHash
            certificateSHA256 := hexEncode (sha256 tsEntry.precertTBS)
            tbsCertificateSHA256 := hexEncode (sha256 tsEntry.precertTBS) }
        else .error "unknown TimestampedEntry type".toList

/-- C3 (amended): when X.509 parsing of a CT `x509_entry` fails, the CT
parser still returns a row carrying the log identity, index, timestamps,
both raw blobs and the computed SHA-256, with all certificate-derived
columns left empty; but when the base64/JSON body of a Rekor entry fails to
parse, `parseRekorEntry` returns an error and no row — the entry is
skipped (with a log line), not emitted. -/
theorem parser_partial_rows_spec {κ ξ σ ρ : Type}
    (unmarshalLeaf : List Nat → Option MerkleTreeLeaf)
    (unmarshalTimestamped : List Nat → Option TimestampedEntry)
    (parseCert : List Nat → Option κ)
    (sha256 : List Nat → List Nat)
    (fillCert : κ → ξ → ξ) (rawTBS : κ → List Nat) (emptyDerived : ξ)
    (rawEntry : CTLogResponseEntry) (logID : GoStr) (currentLogIndex : Int)
    (now : Int) (leafInputBytes : List Nat) (merkleLeaf : MerkleTreeLeaf)
    (jsonParse : List Nat → Option (RekorEntryBody σ))
    (extractSpec : σ → GoStr → ρ → ρ) (emptyDerived2 : ρ) (uuid : GoStr)
    (entry : RekorLogEntry) (treeID : GoStr)
    (verification : RekorVerification) (proof : RekorInclusionProof)
    (e : GoStr) :
    (base64StdDecode rawEntry.leafInput = some leafInputBytes →
      unmarshalLeaf leafInputBytes = some merkleLeaf →
      merkleLeaf.version = 0 → merkleLeaf.leafType = 0 →
      merkleLeaf.timestampedEntry.entryType = 0 →
      parseCert merkleLeaf.timestampedEntry.x509Data = none →
      parseLogEntry unmarshalLeaf unmarshalTimestamped parseCert sha256
        fillCert rawTBS emptyDerived rawEntry logID currentLogIndex now =
        .ok ⟨logID, currentLogIndex, now, rawEntry.leafInput,
          rawEntry.extraData, merkleLeaf.timestampedEntry.timestamp,
          "x509_entry".toList,
          base64StdEncode merkleLeaf.timestampedEntry.x509Data,
          hexEncode (sha256 merkleLeaf.timestampedEntry.x509Data),
          [], [], emptyDerived⟩) ∧
    (entry.verification = some verification →
      verification.inclusionProof = some proof →
      validateCheckpointTreeID proof.checkpoint treeID = .ok () →
      parseEntryBody jsonParse entry.body = .error e →
      parseRekorEntry jsonParse extractSpec emptyDerived2 uuid entry treeID
        now = .failure ("failed to parse entry body for UUID ".toList ++ uuid
          ++ ": ".toList ++ e)) := by
  constructor
  · intro hdec hleaf hver hlt het hcert
    simp only [parseLogEntry, hdec, hleaf, hver, hlt]
    rw [if_neg (by simp), if_neg (by simp), if_pos het, hcert]
  · intro hver hpr hval hbody
    simp only [parseRekorEntry, hver, hpr, hval, hbody]

/-- A concrete Rekor entry with a matching three-line checkpoint but a body
that is not valid base64. -/
def rekorEntryBadBody : RekorLogEntry :=
  { body := "%%".toList, integratedTime := 0, logID := "lid".toList,
    logIndex := 7,
    verification := some
      { inclusionProof := some
          { logIndex := 5,
            checkpoint :=
              "rekor.sigstore.dev - T1\nline two\nline three".toList }
        signedEntryTimestamp := [] } }

/-- C3 counterexample: the claim says a Rekor entry whose base64/JSON body
fails to parse still yields a row carrying the raw body and metadata; on
the concrete entry `rekorEntryBadBody` (valid matching checkpoint, body
`"%%"` that is not base64) `parseRekorEntry` instead returns an error and
the fetch loop skips the entry — no row is produced. -/
theorem parseRekorEntry_body_failure_counterexample :
    parseRekorEntry (fun _ => (none : Option (RekorEntryBody Unit)))
      (fun _ _ d => d) () "u".toList rekorEntryBadBody "T1".toList 0 =
      RekorParse.failure
        "failed to parse entry body for UUID u: failed to decode entry body".toList := by
  rfl

/-- A concrete V1 CT leaf: `x509_entry` with DER bytes `[1, 2]` at
timestamp 99 ms. -/
def ctLeafExample : MerkleTreeLeaf :=
  { version := 0, leafType := 0,
    timestampedEntry :=
      { timestamp := 99, entryType := 0, x509Data := [1, 2],
        precertTBS := [], precertIssuerKeyHash := [] } }

/-- A concrete CT response entry with a valid base64 leaf input. -/
def ctRawEntryExample : CTLogResponseEntry :=
  { leafInput := "AAAA".toList, extraData := [] }

/-- The inclusion proof carried by `rekorEntryBadBody`. -/
def rekorProofT1 : RekorInclusionProof :=
  { logIndex := 5,
    checkpoint := "rekor.sigstore.dev - T1\nline two\nline three".toList }

/-- The verification carried by `rekorEntryBadBody`. -/
def rekorVerificationT1 : RekorVerification :=
  { inclusionProof := some rekorProofT1, signedEntryTimestamp := [] }

/-- Witness for `parser_partial_rows_spec`: a concrete `x509_entry` leaf
whose certificate parser rejects everything still yields a row with the
SHA-256 and raw leaf; the concrete bad-body Rekor entry yields an error. -/
theorem parser_partial_rows_spec_witness :
    (parseLogEntry (κ := Unit) (ξ := Unit) (fun _ => some ctLeafExample)
        (fun _ => none) (fun _ => none) (fun _ => [7]) (fun _ d => d)
        (fun _ => []) () ctRawEntryExample "log1".toList 42 0 =
      .ok ⟨"log1".toList, 42, 0, "AAAA".toList, [], 99,
        "x509_entry".toList, base64StdEncode [1, 2], hexEncode [7], [], [],
        ()⟩) ∧
    (parseRekorEntry (fun _ => (none : Option (RekorEntryBody Unit)))
      (fun _ _ d => d) () "u".toList rekorEntryBadBody "T1".toList 0 =
      .failure ("failed to parse entry body for UUID ".toList ++ "u".toList
        ++ ": ".toList ++ "failed to decode entry body".toList)) := by
  have h := parser_partial_rows_spec (κ := Unit) (ξ := Unit) (σ := Unit)
    (ρ := Unit) (fun _ => some ctLeafExample)
    (fun _ => none) (fun _ => none) (fun _ => [7]) (fun _ d => d)
    (fun _ => []) () ctRawEntryExample "log1".toList 42 0 [0, 0, 0]
    ctLeafExample
    (fun _ => none) (fun _ _ d => d) () "u".toList rekorEntryBadBody
    "T1".toList rekorVerificationT1 rekorProofT1
    "failed to decode entry body".toList
  exact ⟨h.1 rfl rfl rfl rfl rfl rfl, h.2 rfl rfl rfl rfl⟩

/-! ## Resume resolver (`getLatestLogIndex`,
`convertTreeIndexToGlobalIndex`, Rekor `main`) -/

/-- One Rekor inactive shard (`treeID`, `treeSize`). -/
structure InactiveShard where
  treeID : GoStr
  treeSize : Int

/-- `RekorLogInfo` (`/api/v1/log` response). -/
structure RekorLogInfo where
  treeID : GoStr
  treeSize : Int
  inactiveShards : List InactiveShard

/-- `calculateInactiveShardTotalSize`: sum of the inactive shard sizes. -/
def calculateInactiveShardTotalSize (logInfo : RekorLogInfo) : Int :=
  logInfo.inactiveShards.foldl (fun acc s => acc + s.treeSize) 0

/-- `convertTreeIndexToGlobalIndex`. -/
def convertTreeIndexToGlobalIndex (treeIndex : Int)
    (logInfo : RekorLogInfo) : Int :=
  treeIndex + calculateInactiveShardTotalSize logInfo

/-- `getLatestLogIndex` after the driver scan: a `NULL` max (no rows; also
the `sql.ErrNoRows` branch) resumes at 0, otherwise at `max + 1`. -/
def getLatestLogIndex (maxIndex : Option Int) : Int :=
  match maxIndex with
  | none => 0
  | some m => m + 1

/-- Models the store's `SELECT MAX(log_index) FROM rekor_log_entries WHERE
tree_id = ?` (the CT variant is identical over `ct_log_entries` /
`log_id`): the maximum `log_index` among the rows whose log identity
matches, `none` when there are none.  A row is modelled as its
`(log identity, index)` pair. -/
def sqlMaxLogIndex (rows : List (GoStr × Int)) (treeID : GoStr) :
    Option Int :=
  ((rows.filter (fun r => decide (r.1 = treeID))).map (fun r => r.2)).max?

/-- The resume index for a log identity: `getLatestLogIndex` applied to the
store's answer. -/
def resumeIndex (rows : List (GoStr × Int)) (treeID : GoStr) : Int :=
  getLatestLogIndex (sqlMaxLogIndex rows treeID)

/-- Rekor `main`'s start-index resolution: `-1` resumes from the store and
converts the tree-local index to a global one; any other value is used
as the global start index directly. -/
def resolveStartIndex (startIndexFlag : Int) (rows : List (GoStr × Int))
    (logInfo : RekorLogInfo) : Int :=
  if startIndexFlag = -1 then
    convertTreeIndexToGlobalIndex (resumeIndex rows logInfo.treeID) logInfo
  else startIndexFlag

theorem foldl_add_treeSize (shards : List InactiveShard) :
    ∀ a : Int, shards.foldl (fun acc s => acc + s.treeSize) a =
      a + (shards.map (fun s => s.treeSize)).sum := by
  induction shards with
  | nil => intro a; simp
  | cons s t ih =>
    intro a
    rw [List.foldl_cons, ih, List.map_cons, List.sum_cons]
    ring

/-- C4: with `-start_index=-1`, the resume resolver returns `max + 1` over
the rows of the current log identity (`m` being that maximum), or 0 when
no such rows exist; for Rekor this tree-local resume index is converted to
the global start index by adding the sum of the inactive-shard tree
sizes. -/
theorem resume_resolver_spec (rows : List (GoStr × Int))
    (logInfo : RekorLogInfo) (m : Int) :
    ((rows.filter (fun r => decide (r.1 = logInfo.treeID))) = [] →
      resumeIndex rows logInfo.treeID = 0) ∧
    (m ∈ (rows.filter (fun r => decide (r.1 = logInfo.treeID))).map
        (fun r => r.2) →
      (∀ x ∈ (rows.filter (fun r => decide (r.1 = logInfo.treeID))).map
        (fun r => r.2), x ≤ m) →
      resumeIndex rows logInfo.treeID = m + 1) ∧
    resolveStartIndex (-1) rows logInfo =
      resumeIndex rows logInfo.treeID +
        (logInfo.inactiveShards.map (fun s => s.treeSize)).sum := by
  refine ⟨?_, ?_, ?_⟩
  · intro hempty
    simp only [resumeIndex, sqlMaxLogIndex, hempty, List.map_nil,
      List.max?_nil, getLatestLogIndex]
  · intro hmem hub
    have hmax : ((rows.filter (fun r => decide (r.1 = logInfo.treeID))).map
        (fun r => r.2)).max? = some m := by
      haveI : Std.Antisymm (fun (x y : Int) => x ≤ y) :=
        ⟨fun h h2 => le_antisymm h h2⟩
      exact (List.max?_eq_some_iff le_refl max_choice
        (fun _ _ _ => max_le_iff)).mpr ⟨hmem, hub⟩
    simp only [resumeIndex, sqlMaxLogIndex, hmax, getLatestLogIndex]
  · show convertTreeIndexToGlobalIndex (resumeIndex rows logInfo.treeID)
      logInfo = _
    simp only [convertTreeIndexToGlobalIndex, calculateInactiveShardTotalSize,
      foldl_add_treeSize]
    ring

/-- Witness for `resume_resolver_spec`: a store holding indexes 0, 1, 2 of
tree `T2` (and index 9 of another tree) with one inactive shard of size
100 resumes at tree index 3, global index 103. -/
theorem resume_resolver_spec_witness :
    resumeIndex [("T1".toList, 9), ("T2".toList, 0), ("T2".toList, 1),
      ("T2".toList, 2)] "T2".toList = 3 ∧
    resolveStartIndex (-1) [("T1".toList, 9), ("T2".toList, 0),
      ("T2".toList, 1), ("T2".toList, 2)]
      { treeID := "T2".toList, treeSize := 3,
        inactiveShards := [{ treeID := "T1".toList, treeSize := 100 }] } =
      103 := by
  have h := resume_resolver_spec
    [("T1".toList, 9), ("T2".toList, 0), ("T2".toList, 1), ("T2".toList, 2)]
    { treeID := "T2".toList, treeSize := 3,
      inactiveShards := [{ treeID := "T1".toList, treeSize := 100 }] } 2
  have h2 := h.2.1 (by decide) (by decide)
  refine ⟨h2, ?_⟩
  rw [h.2.2, h2]
  decide

/-! ## Rekor batch fetch (`fetchLogEntriesBatch`) -/

/-- `fetchLogEntriesBatch`.  `http` abstracts the marshalled POST to
`/api/v1/log/entries/retrieve` and the JSON decode of its response (a list
of single-entry maps keyed by entry UUID; a map is modelled as an
association list).  The returned `Bool` records whether an HTTP request
was issued; the merged result assembles every `(uuid, entry)` pair of the
response. -/
def fetchLogEntriesBatch
    (http : List Int → Except GoStr (List (List (GoStr × RekorLogEntry))))
    (logIndexes : List Int) :
    Bool × Except GoStr (List (GoStr × RekorLogEntry)) :=
  if logIndexes.length = 0 then (false, .ok [])
  else if logIndexes.length > 10 then
    (false, .error ("batch size cannot exceed 10, got ".toList ++
      (Nat.repr logIndexes.length).toList))
  else
    match http logIndexes with
    | .error e => (true, .error e)
    | .ok response => (true, .ok (response.flatMap id))

/-- C9: the batch-fetch client rejects more than 10 log indexes with an
error and without issuing an HTTP request; for 1 to 10 indexes it issues
the request and, when the upstream answers, returns the mapping of entry
UUIDs to entries merged from the response. -/
theorem fetchLogEntriesBatch_caps_at_ten
    (http : List Int → Except GoStr (List (List (GoStr × RekorLogEntry))))
    (logIndexes : List Int) :
    (logIndexes.length > 10 →
      (fetchLogEntriesBatch http logIndexes).1 = false ∧
      ∃ e, (fetchLogEntriesBatch http logIndexes).2 = .error e) ∧
    (1 ≤ logIndexes.length → logIndexes.length ≤ 10 →
      (fetchLogEntriesBatch http logIndexes).1 = true ∧
      ∀ response, http logIndexes = .ok response →
        (fetchLogEntriesBatch http logIndexes).2 =
          .ok (response.flatMap id)) := by
  constructor
  · intro hgt
    have hne : ¬ logIndexes.length = 0 := by omega
    simp only [fetchLogEntriesBatch, if_neg hne, if_pos hgt]
    exact ⟨by trivial, _, rfl⟩
  · intro h1 h10
    have hne : ¬ logIndexes.length = 0 := by omega
    have hle : ¬ logIndexes.length > 10 := by omega
    simp only [fetchLogEntriesBatch, if_neg hne, if_neg hle]
    constructor
    · cases http logIndexes <;> rfl
    · intro response hresp
      rw [hresp]

/-- Witness for `fetchLogEntriesBatch_caps_at_ten`: eleven indexes are
rejected without a request; a single index is fetched and returns the
response map. -/
theorem fetchLogEntriesBatch_caps_at_ten_witness :
    (fetchLogEntriesBatch (fun _ => .ok [])
      [0, 1, 2, 3, 4, 5, 6, 7, 8, 9, 10]).1 = false ∧
    (fetchLogEntriesBatch (fun _ => .ok []) [5]).1 = true ∧
    (fetchLogEntriesBatch (fun _ => .ok []) [5]).2 = .ok [] := by
  have h1 := (fetchLogEntriesBatch_caps_at_ten (fun _ => .ok [])
    [0, 1, 2, 3, 4, 5, 6, 7, 8, 9, 10]).1 (by decide)
  have h2 := (fetchLogEntriesBatch_caps_at_ten (fun _ => .ok []) [5]).2
    (by decide) (by decide)
  exact ⟨h1.1, h2.1, h2.2 [] rfl⟩

/-! ## PGP public key packet (`parsePublicKeyPacket`) -/

/-- `pgpPublicKeyPacket`. -/
structure pgpPublicKeyPacket where
  fingerprint : GoStr
  keyID : GoStr
  algorithm : GoStr
  keySize : Int
  creationTime : Int
  deriving Repr, DecidableEq

/-- `parsePublicKeyPacket`.  `sha256` abstracts `crypto/sha256`; indexing
`data.getD i 0` mirrors `data[i]` under the length guards; byte values are
taken mod 256 as Go byte arithmetic does.  The fingerprint hashes
`0x99 || byte(len>>8) || byte(len) || data`; the key ID is
`fingerprint[len(fingerprint)-16:]` (sliced with truncated subtraction —
with a real SHA-256 the fingerprint has 64 hex characters). -/
def parsePublicKeyPacket (sha256 : List Nat → List Nat) (data : List Nat) :
    Except GoStr pgpPublicKeyPacket :=
  if data.length < 6 then
    .error "insufficient data for public key packet".toList
  else
    let version := data.getD 0 0
    if version ≠ 4 then
      .error ("unsupported key version: ".toList ++ (Nat.repr version).toList)
    else
      let creationTime : Int :=
        ((data.getD 1 0 % 256) * 16777216 + (data.getD 2 0 % 256) * 65536 +
          (data.getD 3 0 % 256) * 256 + data.getD 4 0 % 256 : Nat)
      let algorithm := data.getD 5 0
      let algoResult : Except GoStr (GoStr × Int) :=
        if algorithm = 1 then
          if data.length < 8 then .error "insufficient data for RSA key".toList
          else .ok ("RSA".toList,
            ((data.getD 6 0 % 256) * 256 + data.getD 7 0 % 256 : Nat))
        else if algorithm = 17 then
          if data.length < 8 then .error "insufficient data for DSA key".toList
          else .ok ("DSA".toList,
            ((data.getD 6 0 % 256) * 256 + data.getD 7 0 % 256 : Nat))
        else if algorithm = 18 then .ok ("ECDH".toList, 256)
        else if algorithm = 19 then .ok ("ECDSA".toList, 256)
        else if algorithm = 22 then .ok ("EdDSA".toList, 256)
        else .ok ("Unknown(".toList ++ (Nat.repr algorithm).toList ++
          ")".toList, 0)
      match algoResult with
      | .error e => .error e
      | .ok algo =>
        let fingerprint := hexEncode (sha256 ([0x99] ++
          [data.length / 256 % 256, data.length % 256] ++ data))
        let keyID := fingerprint.drop (fingerprint.length - 16)
        .ok
          { fingerprint := fingerprint, keyID := keyID, algorithm := algo.1,
            keySize := algo.2, creationTime := creationTime }

theorem hexEncode_length (bytes : List Nat) :
    (hexEncode bytes).length = 2 * bytes.length := by
  induction bytes with
  | nil => rfl
  | cons b t ih =>
    simp only [hexEncode, List.flatMap_cons, List.length_append,
      List.length_cons, List.length_nil] at ih ⊢
    omega

/-- C8 (amended): whenever `parsePublicKeyPacket` accepts a packet body
(necessarily version 4), the fingerprint is the lowercase hex encoding of
SHA-256 over `0x99 || big-endian 16-bit packet length || packet bytes`
(64 hex characters for a real 32-byte SHA-256) and the key ID is exactly
the last 16 hex characters of that fingerprint. -/
theorem parsePublicKeyPacket_fingerprint_spec
    (sha256 : List Nat → List Nat) (data : List Nat)
    (pkt : pgpPublicKeyPacket) (hlen : ∀ b, (sha256 b).length = 32)
    (hok : parsePublicKeyPacket sha256 data = .ok pkt) :
    pkt.fingerprint = hexEncode (sha256 (0x99 :: data.length / 256 % 256 ::
      data.length % 256 :: data)) ∧
    pkt.fingerprint.length = 64 ∧
    pkt.keyID = pkt.fingerprint.drop (pkt.fingerprint.length - 16) ∧
    pkt.keyID.length = 16 ∧
    data.getD 0 0 = 4 := by
  simp only [parsePublicKeyPacket] at hok
  split_ifs at hok with h6 hv h1 h8 h17 h8b h18 h19 h22
  all_goals injection hok with h
  all_goals
    subst h
    push_neg at hv
    dsimp only
    refine ⟨rfl, ?_, rfl, ?_, hv⟩
    · rw [hexEncode_length, hlen]
    · rw [List.length_drop, hexEncode_length, hlen]

/-- Witness for `parsePublicKeyPacket_fingerprint_spec`: a concrete 6-byte
version-4 EdDSA packet body under an all-zero 32-byte digest function
parses with a 64-character fingerprint and 16-character key ID. -/
theorem parsePublicKeyPacket_fingerprint_spec_witness :
    ∃ pkt, parsePublicKeyPacket (fun _ => List.replicate 32 0)
      [4, 0, 0, 0, 0, 22] = .ok pkt ∧
      pkt.fingerprint.length = 64 ∧ pkt.keyID.length = 16 := by
  obtain ⟨pkt, hok⟩ : ∃ pkt, parsePublicKeyPacket
      (fun _ => List.replicate 32 0) [4, 0, 0, 0, 0, 22] = .ok pkt :=
    ⟨_, rfl⟩
  have h := parsePublicKeyPacket_fingerprint_spec _ _ pkt
    (fun b => by simp) hok
  exact ⟨pkt, hok, h.2.1, h.2.2.2.1⟩

/-- C8 counterexample: the claim quantifies over every version-4
public-key packet body, but the 6-byte version-4 RSA body
`[4, 0, 0, 0, 0, 1]` (no MPI length bytes) makes `parsePublicKeyPacket`
return an error — no fingerprint or key ID is computed for it. -/
theorem parsePublicKeyPacket_truncated_rsa :
    parsePublicKeyPacket (fun _ => List.replicate 32 0) [4, 0, 0, 0, 0, 1] =
      .error "insufficient data for RSA key".toList := by
  rfl
